import Mathlib

/-!
Verification of the nybbler virtual-pet state-evolution engine.

The Rust source (src/main.rs, src/characters.rs) stores the pet's four
stats as `u8`, its age as `u16`, and its last-update instant as a
`chrono::DateTime<Local>`.  We embed `u8`/`u16` values as `Nat` with
explicit `% 256` / `% 65536` where wrapping addition occurs; Rust's
`saturating_sub` on unsigned integers is exactly truncated `Nat`
subtraction.  The floating-point decay formulas of `Nybbler::update`
(`(rate * hours).min(cap) as u8` with `hours = seconds / 3600.0`) are
embedded over the integers: for nonpositive elapsed seconds the `as u8`
cast of the negative float yields 0, otherwise the cast truncates
`min (rate * secs / 3600) cap` downward, which is Nat division.
-/

/-- The seven moods of `NybblerMood` (main.rs:19-27). -/
inductive NybblerMood where
  | Happy
  | Neutral
  | Sad
  | Sick
  | Sleeping
  | Excited
  | Playful
  deriving DecidableEq

/-- The cosmetic character variants of `CharacterType` (characters.rs:10-16). -/
inductive CharacterType where
  | Blob
  | Square
  | Ghost
  | Cat
  | Robo
  deriving DecidableEq

/-- A local calendar timestamp with a fixed minute-level UTC offset; embeds
`chrono::DateTime<Local>` by its civil fields plus sub-second nanoseconds. -/
structure LocalDateTime where
  year : Nat
  month : Nat
  day : Nat
  hour : Nat
  minute : Nat
  second : Nat
  nano : Nat
  offsetMinutes : Int
  deriving DecidableEq

/-- Days since 1970-01-01 of a civil date (standard civil-calendar
conversion); used only to give timestamps an instant on the real line. -/
def daysFromCivil (y m d : Nat) : Int :=
  let yi : Int := (y : Int) - (if m ≤ 2 then 1 else 0)
  let era : Int := Int.fdiv yi 400
  let yoe : Int := yi - era * 400
  let mp : Int := ((m : Int) + 9) % 12
  let doy : Int := (153 * mp + 2) / 5 + (d : Int) - 1
  let doe : Int := yoe * 365 + yoe / 4 - yoe / 100 + doy
  era * 146097 + doe - 719468

/-- Nanoseconds since the epoch of the instant a `LocalDateTime` denotes. -/
def LocalDateTime.toEpochNanos (t : LocalDateTime) : Int :=
  (daysFromCivil t.year t.month t.day * 86400
      + (t.hour : Int) * 3600 + (t.minute : Int) * 60 + (t.second : Int)
      - t.offsetMinutes * 60) * 1000000000 + (t.nano : Int)

/-- Whole elapsed seconds from `t0` to `t1`, truncated toward zero: embeds
`now.signed_duration_since(self.last_updated).num_seconds()` (main.rs:149-150). -/
def elapsedSeconds (t0 t1 : LocalDateTime) : Int :=
  Int.tdiv (t1.toEpochNanos - t0.toEpochNanos) 1000000000

/-- The game-state struct `Nybbler` (main.rs:57-70). -/
structure Nybbler where
  name : String
  hunger : Nat
  happiness : Nat
  energy : Nat
  health : Nat
  age : Nat
  last_updated : LocalDateTime
  mood : NybblerMood
  character_type : CharacterType
  deriving DecidableEq

/-- One time-based stat decrease of `Nybbler::update` (main.rs:153-155):
`(rate as f64 * hours_passed).min(cap as f64) as u8` with
`hours_passed = secs / 3600.0`.  The `as u8` cast saturates negative values
to 0 and truncates the rest downward. -/
def statDecrease (rate cap : Nat) (secs : Int) : Nat :=
  if secs ≤ 0 then 0 else min (rate * secs.toNat / 3600) cap

/-- The age increment of `Nybbler::update` (main.rs:163):
`(hours_passed / 24.0) as u16`, saturating to 0 below and 65535 above. -/
def ageIncrease (secs : Int) : Nat :=
  if secs ≤ 0 then 0 else min (secs.toNat / 86400) 65535

/-- `Nybbler::update_mood` (main.rs:178-194) as a pure function of the four
stats it reads. -/
def update_mood (hunger happiness energy health : Nat) : NybblerMood :=
  if health < 30 then .Sick
  else if energy < 20 then .Sleeping
  else if hunger < 30 ∨ happiness < 30 then .Sad
  else if 70 < hunger ∧ 70 < happiness ∧ 70 < energy then .Excited
  else if 70 < hunger ∧ 70 < happiness then .Happy
  else if 80 < happiness then .Playful
  else .Neutral

/-- `Nybbler::update` (main.rs:147-175); the call to `Local::now()` is made
explicit as the `now` argument. -/
def Nybbler.update (p : Nybbler) (now : LocalDateTime) : Nybbler :=
  let secs := elapsedSeconds p.last_updated now
  let hunger' := p.hunger - statDecrease 5 5 secs
  let happiness' := p.happiness - statDecrease 3 3 secs
  let energy' := p.energy - statDecrease 2 2 secs
  let age' := (p.age + ageIncrease secs) % 65536
  let health' := if hunger' < 20 ∨ happiness' < 20 then p.health - 5 else p.health
  { p with
      hunger := hunger'
      happiness := happiness'
      energy := energy'
      age := age'
      health := health'
      mood := update_mood hunger' happiness' energy' health'
      last_updated := now }

/-- `Nybbler::feed` (main.rs:197-201): `(hunger + 30).min(100)`,
`(energy + 5).min(100)`, then mood recomputation. -/
def Nybbler.feed (p : Nybbler) : Nybbler :=
  let hunger' := min ((p.hunger + 30) % 256) 100
  let energy' := min ((p.energy + 5) % 256) 100
  { p with
      hunger := hunger'
      energy := energy'
      mood := update_mood hunger' p.happiness energy' p.health }

/-- `Nybbler::play` (main.rs:204-209). -/
def Nybbler.play (p : Nybbler) : Nybbler :=
  let happiness' := min ((p.happiness + 20) % 256) 100
  let hunger' := p.hunger - 10
  let energy' := p.energy - 15
  { p with
      happiness := happiness'
      hunger := hunger'
      energy := energy'
      mood := update_mood hunger' happiness' energy' p.health }

/-- `Nybbler::sleep` (main.rs:212-216). -/
def Nybbler.sleep (p : Nybbler) : Nybbler :=
  let happiness' := min ((p.happiness + 5) % 256) 100
  { p with
      energy := 100
      happiness := happiness'
      mood := update_mood p.hunger happiness' 100 p.health }

/-- `Nybbler::heal` (main.rs:219-222). -/
def Nybbler.heal (p : Nybbler) : Nybbler :=
  { p with
      health := 100
      mood := update_mood p.hunger p.happiness p.energy 100 }

/-- `Nybbler::is_alive` (main.rs:225-227). -/
def Nybbler.is_alive (p : Nybbler) : Bool :=
  decide (0 < p.health)

/-- `Nybbler::new` (main.rs:99-111); `Local::now()` and the randomly chosen
`CharacterType::random()` are made explicit inputs. -/
def Nybbler.new (name : String) (now : LocalDateTime) (ct : CharacterType) : Nybbler :=
  { name := name
    hunger := 50
    happiness := 50
    energy := 100
    health := 100
    age := 0
    last_updated := now
    mood := .Happy
    character_type := ct }

/-- All four numeric stats lie in [0,100] (the lower bound is inherent to
the unsigned embedding). -/
def Nybbler.StatsInRange (p : Nybbler) : Prop :=
  p.hunger ≤ 100 ∧ p.happiness ≤ 100 ∧ p.energy ≤ 100 ∧ p.health ≤ 100

instance (p : Nybbler) : Decidable p.StatsInRange := by
  unfold Nybbler.StatsInRange; infer_instance

/-- The mood classifier, transcribed rule by rule from the specification's
priority table (spec §4.1): evaluated top-to-bottom, first matching rule
wins. -/
def moodSpecTable (hunger happiness energy health : Nat) : NybblerMood :=
  if health < 30 then .Sick
  else if energy < 20 then .Sleeping
  else if hunger < 30 ∨ happiness < 30 then .Sad
  else if 70 < hunger ∧ 70 < happiness ∧ 70 < energy then .Excited
  else if 70 < hunger ∧ 70 < happiness then .Happy
  else if 80 < happiness then .Playful
  else .Neutral

/-- Fixed-width decimal digits of `n`, most significant first. -/
def digitChars : Nat → Nat → List Char
  | 0, _ => []
  | k + 1, n => Nat.digitChar (n / 10 ^ k) :: digitChars k (n % 10 ^ k)

/-- Read exactly `k` decimal digits, most significant first, onto an
accumulator. -/
def readDigits : Nat → Nat → List Char → Option (Nat × List Char)
  | 0, acc, l => some (acc, l)
  | k + 1, acc, c :: l =>
      if c.isDigit then readDigits k (acc * 10 + (c.toNat - 48)) l else none
  | _ + 1, _, [] => none

/-- Consume one expected literal character. -/
def expectChar (c : Char) : List Char → Option (List Char)
  | d :: l => if d = c then some l else none
  | [] => none

/-- Length of a month in the proleptic Gregorian calendar. -/
def daysInMonth (y m : Nat) : Nat :=
  if m = 2 then if y % 4 = 0 ∧ (y % 100 ≠ 0 ∨ y % 400 = 0) then 29 else 28
  else if m = 4 ∨ m = 6 ∨ m = 9 ∨ m = 11 then 30 else 31

/-- Sign, hours and minutes of a UTC offset: `+HH:MM` or `-HH:MM`. -/
def readSign : List Char → Option (Int × List Char)
  | '+' :: l => some (1, l)
  | '-' :: l => some (-1, l)
  | _ => none

/-- `YYYY-MM-DD`. -/
def dateChars (y mo d : Nat) : List Char :=
  digitChars 4 y ++ '-' :: (digitChars 2 mo ++ '-' :: digitChars 2 d)

/-- `HH:MM:SS`. -/
def clockChars (h mi s : Nat) : List Char :=
  digitChars 2 h ++ ':' :: (digitChars 2 mi ++ ':' :: digitChars 2 s)

/-- `+HH:MM` or `-HH:MM` from signed whole minutes. -/
def offsetChars (off : Int) : List Char :=
  (if 0 ≤ off then '+' else '-') ::
    (digitChars 2 (off.natAbs / 60) ++ ':' :: digitChars 2 (off.natAbs % 60))

/-- Modelled from the spec: the textual, timezone-aware, round-trippable
RFC 3339 form of `last_updated` written by `chrono_serde::serialize`
(main.rs:77-83) via chrono's `to_rfc3339`, which is library code not in
this repository: `YYYY-MM-DDTHH:MM:SS.NNNNNNNNN+HH:MM`, with the
fractional second written here at fixed nanosecond width and the offset as
signed whole minutes. -/
def toRfc3339 (t : LocalDateTime) : List Char :=
  dateChars t.year t.month t.day ++ 'T' ::
    (clockChars t.hour t.minute t.second ++ '.' ::
      (digitChars 9 t.nano ++ offsetChars t.offsetMinutes))

/-- Parse `YYYY-MM-DD` and return the remaining input. -/
def parseDate (l : List Char) : Option (Nat × Nat × Nat × List Char) :=
  (readDigits 4 0 l).bind fun py =>
  (expectChar '-' py.2).bind fun l1 =>
  (readDigits 2 0 l1).bind fun pmo =>
  (expectChar '-' pmo.2).bind fun l2 =>
  (readDigits 2 0 l2).bind fun pd =>
  some (py.1, pmo.1, pd.1, pd.2)

/-- Parse `HH:MM:SS` and return the remaining input. -/
def parseClock (l : List Char) : Option (Nat × Nat × Nat × List Char) :=
  (readDigits 2 0 l).bind fun ph =>
  (expectChar ':' ph.2).bind fun l1 =>
  (readDigits 2 0 l1).bind fun pmi =>
  (expectChar ':' pmi.2).bind fun l2 =>
  (readDigits 2 0 l2).bind fun ps =>
  some (ph.1, pmi.1, ps.1, ps.2)

/-- Parse `±HH:MM` into signed whole minutes, validating the ranges. -/
def parseOffset (l : List Char) : Option (Int × List Char) :=
  (readSign l).bind fun psgn =>
  (readDigits 2 0 psgn.2).bind fun poh =>
  (expectChar ':' poh.2).bind fun l1 =>
  (readDigits 2 0 l1).bind fun pom =>
  if poh.1 < 24 ∧ pom.1 < 60 then
    some (psgn.1 * ((poh.1 : Int) * 60 + (pom.1 : Int)), pom.2)
  else
    none

/-- Modelled from the spec: RFC 3339 parsing as done by
`chrono_serde::deserialize` (main.rs:85-94) via chrono's
`parse_from_rfc3339` (library code not in this repository), restricted to
the grammar `toRfc3339` emits, with calendar-range validation. -/
def parseRfc3339 (l : List Char) : Option LocalDateTime :=
  (parseDate l).bind fun pd =>
  (expectChar 'T' pd.2.2.2).bind fun l1 =>
  (parseClock l1).bind fun pc =>
  (expectChar '.' pc.2.2.2).bind fun l2 =>
  (readDigits 9 0 l2).bind fun pn =>
  (parseOffset pn.2).bind fun po =>
  if po.2 = [] ∧ 1 ≤ pd.2.1 ∧ pd.2.1 ≤ 12 ∧ 1 ≤ pd.2.2.1 ∧
      pd.2.2.1 ≤ daysInMonth pd.1 pd.2.1 ∧ pc.1 < 24 ∧ pc.2.1 < 60 ∧
      pc.2.2.1 < 60 then
    some ⟨pd.1, pd.2.1, pd.2.2.1, pc.1, pc.2.1, pc.2.2.1, pn.1, po.1⟩
  else
    none

/-- Modelled from the spec: the persisted save-file content (spec §6) — a
structured text record with all `Nybbler` field names preserved, the
timestamp as its RFC 3339 string, and the cosmetic `character_type` field
optional because older save files predate it (spec §4.2). -/
structure SaveRecord where
  name : String
  hunger : Nat
  happiness : Nat
  energy : Nat
  health : Nat
  age : Nat
  last_updated : String
  mood : NybblerMood
  character_type : Option CharacterType
  deriving DecidableEq

/-- `Nybbler::save` (main.rs:114-122): serde serialization of every field,
with `last_updated` through `chrono_serde::serialize`. -/
def Nybbler.save (p : Nybbler) : SaveRecord :=
  { name := p.name
    hunger := p.hunger
    happiness := p.happiness
    energy := p.energy
    health := p.health
    age := p.age
    last_updated := String.mk (toRfc3339 p.last_updated)
    mood := p.mood
    character_type := some p.character_type }

/-- `Nybbler::load` (main.rs:125-134): serde deserialization; a missing
`character_type` field is filled by the serde default generator
`CharacterType::random()` (main.rs:68-69), passed here as `gen`. -/
def Nybbler.load (r : SaveRecord) (gen : CharacterType) : Option Nybbler := do
  let dt ← parseRfc3339 r.last_updated.toList
  some { name := r.name
         hunger := r.hunger
         happiness := r.happiness
         energy := r.energy
         health := r.health
         age := r.age
         last_updated := dt
         mood := r.mood
         character_type := r.character_type.getD gen }

/-- Timestamps representable in the four-digit-year RFC 3339 grammar. -/
def LocalDateTime.Valid (t : LocalDateTime) : Prop :=
  t.year < 10000 ∧ 1 ≤ t.month ∧ t.month ≤ 12 ∧ 1 ≤ t.day ∧
    t.day ≤ daysInMonth t.year t.month ∧ t.hour < 24 ∧ t.minute < 60 ∧
    t.second < 60 ∧ t.nano < 1000000000 ∧ t.offsetMinutes.natAbs < 1440

instance (t : LocalDateTime) : Decidable t.Valid := by
  unfold LocalDateTime.Valid; infer_instance

/-- A sample creation instant, 2024-01-01 00:00:00 local at UTC offset 0. -/
def tJan1 : LocalDateTime := ⟨2024, 1, 1, 0, 0, 0, 0, 0⟩

/-- Two hours after `tJan1`. -/
def tJan1h2 : LocalDateTime := ⟨2024, 1, 1, 2, 0, 0, 0, 0⟩

/-- Twelve hours after `tJan1`. -/
def tJan1h12 : LocalDateTime := ⟨2024, 1, 1, 12, 0, 0, 0, 0⟩

/-- Twenty-four hours after `tJan1`. -/
def tJan2 : LocalDateTime := ⟨2024, 1, 2, 0, 0, 0, 0, 0⟩

/-- One hour before `tJan1`. -/
def tDec31h23 : LocalDateTime := ⟨2023, 12, 31, 23, 0, 0, 0, 0⟩

/-- A far-future instant, years after `tJan1`. -/
def tFar : LocalDateTime := ⟨2030, 6, 1, 0, 0, 0, 0, 0⟩

/-- A sample freshly created pet. -/
def rex : Nybbler := Nybbler.new "Rex" tJan1 .Cat

/-- A sample pet that is starving (hunger below 20) but otherwise healthy,
with its cached mood consistent with its stats. -/
def hungryRex : Nybbler :=
  { rex with hunger := 10, mood := update_mood 10 50 100 100 }

/-- An "older" save record written before the cosmetic `character_type`
field existed: the field is absent. -/
def oldSave : SaveRecord :=
  { name := "Rex"
    hunger := 50
    happiness := 50
    energy := 100
    health := 100
    age := 0
    last_updated := String.mk (toRfc3339 tJan1)
    mood := .Happy
    character_type := none }

/-- C1: for every pet whose four stats are in [0,100], each of decay
(update), feed, play, sleep and heal leaves all four stats in [0,100];
no arithmetic underflows below 0 or exceeds 100. -/
theorem mutators_preserve_stat_range (p : Nybbler) (now : LocalDateTime)
    (h : p.StatsInRange) :
    (p.update now).StatsInRange ∧ p.feed.StatsInRange ∧ p.play.StatsInRange ∧
      p.sleep.StatsInRange ∧ p.heal.StatsInRange := by
  obtain ⟨h1, h2, h3, h4⟩ := h
  refine ⟨⟨?_, ?_, ?_, ?_⟩, ⟨?_, ?_, ?_, ?_⟩, ⟨?_, ?_, ?_, ?_⟩,
    ⟨?_, ?_, ?_, ?_⟩, ⟨?_, ?_, ?_, ?_⟩⟩ <;>
    simp only [Nybbler.update, Nybbler.feed, Nybbler.play, Nybbler.sleep,
      Nybbler.heal] <;>
    (try split_ifs) <;> omega

/-- Witness for C1: a fresh pet's stats are in range, and so are the stats
after each operation. -/
theorem mutators_preserve_stat_range_witness :
    (Nybbler.new "Rex" ⟨2024, 1, 1, 0, 0, 0, 0, 0⟩ .Blob).StatsInRange ∧
      ((Nybbler.new "Rex" ⟨2024, 1, 1, 0, 0, 0, 0, 0⟩ .Blob).update
          ⟨2024, 1, 2, 0, 0, 0, 0, 0⟩).StatsInRange ∧
      (Nybbler.new "Rex" ⟨2024, 1, 1, 0, 0, 0, 0, 0⟩ .Blob).feed.StatsInRange ∧
      (Nybbler.new "Rex" ⟨2024, 1, 1, 0, 0, 0, 0, 0⟩ .Blob).play.StatsInRange ∧
      (Nybbler.new "Rex" ⟨2024, 1, 1, 0, 0, 0, 0, 0⟩ .Blob).sleep.StatsInRange ∧
      (Nybbler.new "Rex" ⟨2024, 1, 1, 0, 0, 0, 0, 0⟩ .Blob).heal.StatsInRange := by
  have h := mutators_preserve_stat_range (Nybbler.new "Rex" ⟨2024, 1, 1, 0, 0, 0, 0, 0⟩ .Blob)
    ⟨2024, 1, 2, 0, 0, 0, 0, 0⟩ (by decide)
  exact ⟨by decide, h.1, h.2.1, h.2.2.1, h.2.2.2.1, h.2.2.2.2⟩

/-- C2: the mood classifier is total and deterministic, and computes, for
every stat tuple, exactly the mood given by the specification's priority
table (health < 30 → Sick; else energy < 20 → Sleeping; else hunger < 30 or
happiness < 30 → Sad; else hunger > 70 and happiness > 70 and energy > 70 →
Excited; else hunger > 70 and happiness > 70 → Happy; else happiness > 80 →
Playful; otherwise Neutral). -/
theorem update_mood_follows_priority_table
    (hunger happiness energy health : Nat) :
    update_mood hunger happiness energy health =
      moodSpecTable hunger happiness energy health := rfl

/-- C7: feeding a freshly created pet yields hunger 80, energy still 100
(capped), and recomputed mood Neutral (rule 5 fails since happiness is 50,
not above 70). -/
theorem feed_fresh_pet (now : LocalDateTime) (ct : CharacterType) :
    (Nybbler.new "Rex" now ct).feed.hunger = 80 ∧
      (Nybbler.new "Rex" now ct).feed.energy = 100 ∧
      (Nybbler.new "Rex" now ct).feed.mood = NybblerMood.Neutral :=
  ⟨rfl, rfl, rfl⟩

theorem statDecrease_le (rate cap : Nat) (secs : Int) :
    statDecrease rate cap secs ≤ cap := by
  unfold statDecrease; split_ifs <;> omega

theorem statDecrease_of_nonpos (rate cap : Nat) (secs : Int) (h : secs ≤ 0) :
    statDecrease rate cap secs = 0 := by
  unfold statDecrease; simp [h]

theorem statDecrease_of_hour (rate : Nat) (secs : Int) (h : 3600 ≤ secs) :
    statDecrease rate rate secs = rate := by
  unfold statDecrease
  have h0 : ¬ secs ≤ 0 := by omega
  have h1 : 3600 ≤ secs.toNat := by omega
  have h2 : rate ≤ rate * secs.toNat / 3600 := by
    have := Nat.div_le_div_right (c := 3600) (Nat.mul_le_mul_left rate h1)
    simpa [Nat.mul_div_cancel] using this
  simp [h0]; omega

theorem statDecrease_sub_zero (rate cap : Nat) (secs : Int) (h : secs = 0) :
    statDecrease rate cap secs = 0 := statDecrease_of_nonpos rate cap secs (by omega)

/-- C3: a decay call with at least one hour elapsed decreases hunger,
happiness and energy by exactly 5, 3 and 2 when each stat is at least that
amount; and for any elapsed time, however large, the per-call decreases
never exceed 5, 3 and 2. -/
theorem update_decay_exact_and_capped (p : Nybbler) (now other : LocalDateTime)
    (hsec : 3600 ≤ elapsedSeconds p.last_updated now)
    (hh : 5 ≤ p.hunger) (hp : 3 ≤ p.happiness) (he : 2 ≤ p.energy) :
    ((p.update now).hunger = p.hunger - 5 ∧
      (p.update now).happiness = p.happiness - 3 ∧
      (p.update now).energy = p.energy - 2) ∧
    ((p.update other).hunger ≤ p.hunger ∧ p.hunger ≤ (p.update other).hunger + 5 ∧
      (p.update other).happiness ≤ p.happiness ∧
      p.happiness ≤ (p.update other).happiness + 3 ∧
      (p.update other).energy ≤ p.energy ∧
      p.energy ≤ (p.update other).energy + 2) := by
  have c5 := statDecrease_le 5 5 (elapsedSeconds p.last_updated other)
  have c3 := statDecrease_le 3 3 (elapsedSeconds p.last_updated other)
  have c2 := statDecrease_le 2 2 (elapsedSeconds p.last_updated other)
  simp only [Nybbler.update, statDecrease_of_hour 5 _ hsec,
    statDecrease_of_hour 3 _ hsec, statDecrease_of_hour 2 _ hsec]
  exact ⟨⟨trivial, trivial, trivial⟩, by omega⟩

/-- Witness for C3: the exact decrease after two hours and the caps after a
six-year absence, on a concrete fresh pet. -/
theorem update_decay_exact_and_capped_witness :
    (((rex.update tJan1h2).hunger = rex.hunger - 5 ∧
      (rex.update tJan1h2).happiness = rex.happiness - 3 ∧
      (rex.update tJan1h2).energy = rex.energy - 2) ∧
    ((rex.update tFar).hunger ≤ rex.hunger ∧
      rex.hunger ≤ (rex.update tFar).hunger + 5 ∧
      (rex.update tFar).happiness ≤ rex.happiness ∧
      rex.happiness ≤ (rex.update tFar).happiness + 3 ∧
      (rex.update tFar).energy ≤ rex.energy ∧
      rex.energy ≤ (rex.update tFar).energy + 2)) :=
  update_decay_exact_and_capped rex tJan1h2 tFar
    (by decide) (by decide) (by decide) (by decide)

theorem elapsedSeconds_self (t : LocalDateTime) : elapsedSeconds t t = 0 := by
  simp [elapsedSeconds]

/-- Counterexample for C4: with zero elapsed time the mood is still
recomputed (a fresh pet's cached Happy becomes Neutral), and the flat
health penalty still fires for a starving pet, so decay with zero elapsed
time does not leave every field other than last_updated unchanged. -/
theorem update_zero_elapsed_counterexample :
    elapsedSeconds rex.last_updated tJan1 = 0 ∧
      (rex.update tJan1).mood ≠ rex.mood ∧
      elapsedSeconds hungryRex.last_updated tJan1 = 0 ∧
      (hungryRex.update tJan1).health ≠ hungryRex.health := by decide

/-- C4 (amended): decay with zero elapsed time leaves hunger, happiness,
energy and age unchanged; health is unchanged provided hunger and happiness
are at least 20 (otherwise the flat penalty still fires); the mood is
recomputed from the unchanged stats (so it changes exactly when the cached
mood disagreed with the classifier); last_updated is set to now. -/
theorem update_zero_elapsed_amended (p : Nybbler) (now : LocalDateTime)
    (h0 : elapsedSeconds p.last_updated now = 0)
    (hh : 20 ≤ p.hunger) (hp : 20 ≤ p.happiness) (hage : p.age < 65536) :
    (p.update now).hunger = p.hunger ∧ (p.update now).happiness = p.happiness ∧
      (p.update now).energy = p.energy ∧ (p.update now).health = p.health ∧
      (p.update now).age = p.age ∧
      (p.update now).mood = update_mood p.hunger p.happiness p.energy p.health ∧
      (p.update now).last_updated = now := by
  have e5 := statDecrease_of_nonpos 5 5 _ (le_of_eq h0)
  have e3 := statDecrease_of_nonpos 3 3 _ (le_of_eq h0)
  have e2 := statDecrease_of_nonpos 2 2 _ (le_of_eq h0)
  have ea : ageIncrease (elapsedSeconds p.last_updated now) = 0 := by
    rw [h0]; rfl
  have hcond : ¬ (p.hunger < 20 ∨ p.happiness < 20) := by omega
  simp only [Nybbler.update, e5, e3, e2, ea, if_neg hcond, Nat.sub_zero,
    Nat.add_zero]
  refine ⟨?_, ?_, ?_, ?_, ?_, ?_, ?_⟩ <;> first | trivial | omega

/-- Witness for C4 (amended): a fresh pet decayed at its own creation
instant keeps its stats and age, and its mood is the recomputed one. -/
theorem update_zero_elapsed_amended_witness :
    (rex.update tJan1).hunger = rex.hunger ∧
      (rex.update tJan1).happiness = rex.happiness ∧
      (rex.update tJan1).energy = rex.energy ∧
      (rex.update tJan1).health = rex.health ∧
      (rex.update tJan1).age = rex.age ∧
      (rex.update tJan1).mood = update_mood rex.hunger rex.happiness rex.energy rex.health ∧
      (rex.update tJan1).last_updated = tJan1 :=
  update_zero_elapsed_amended rex tJan1 (by decide) (by decide) (by decide) (by decide)

/-- Counterexample for C5: a pet created at 2024-01-01 00:00 and decayed at
+12h and again at +24h has seen a full 24-hour span since creation, yet its
age is still 0 — fractional day progress is reset at each decay call, not
accumulated since creation. -/
theorem age_not_cumulative_counterexample :
    rex.age = 0 ∧ elapsedSeconds rex.last_updated tJan2 = 86400 ∧
      ((rex.update tJan1h12).update tJan2).age = 0 := by decide

/-- C5 (amended): age advances only in whole days of the elapsed time of a
single decay call, measured from last_updated rather than from creation: a
call whose elapsed time is under 24 hours leaves age unchanged, and the
fractional day progress is discarded at each call, so a sequence of
sub-24-hour calls never advances age even when the total elapsed time since
creation reaches 24 hours. -/
theorem update_age_within_day (p : Nybbler) (now : LocalDateTime)
    (h0 : 0 ≤ elapsedSeconds p.last_updated now)
    (h1 : elapsedSeconds p.last_updated now < 86400)
    (hage : p.age < 65536) :
    (p.update now).age = p.age := by
  have ea : ageIncrease (elapsedSeconds p.last_updated now) = 0 := by
    unfold ageIncrease
    split_ifs with hs
    · rfl
    · have hlt : (elapsedSeconds p.last_updated now).toNat < 86400 := by omega
      simp [Nat.div_eq_of_lt hlt]
  simp only [Nybbler.update, ea, Nat.add_zero]
  exact Nat.mod_eq_of_lt hage

/-- Witness for C5 (amended): twelve hours of elapsed time leave age at 0. -/
theorem update_age_within_day_witness :
    (rex.update tJan1h12).age = rex.age :=
  update_age_within_day rex tJan1h12 (by decide) (by decide) (by decide)

/-- C6: a decay call whose `now` is earlier than last_updated (negative
elapsed time) produces zero decrease in hunger, happiness and energy: the
stats are neither increased nor decreased. -/
theorem update_negative_elapsed_no_decrease (p : Nybbler) (now : LocalDateTime)
    (hneg : elapsedSeconds p.last_updated now < 0) :
    (p.update now).hunger = p.hunger ∧ (p.update now).happiness = p.happiness ∧
      (p.update now).energy = p.energy := by
  have e5 := statDecrease_of_nonpos 5 5 _ (le_of_lt hneg)
  have e3 := statDecrease_of_nonpos 3 3 _ (le_of_lt hneg)
  have e2 := statDecrease_of_nonpos 2 2 _ (le_of_lt hneg)
  simp only [Nybbler.update, e5, e3, e2, Nat.sub_zero]
  refine ⟨?_, ?_, ?_⟩ <;> trivial

/-- Witness for C6: decaying a pet one hour before its last update leaves
hunger, happiness and energy unchanged. -/
theorem update_negative_elapsed_no_decrease_witness :
    (rex.update tDec31h23).hunger = rex.hunger ∧
      (rex.update tDec31h23).happiness = rex.happiness ∧
      (rex.update tDec31h23).energy = rex.energy :=
  update_negative_elapsed_no_decrease rex tDec31h23 (by decide)

/-- C10: the flat −5 health penalty fires whenever hunger or happiness is
below 20 after the time-based decreases, independently of elapsed time; in
particular, for a pet with hunger or happiness below 20, every call of a
back-to-back sequence of decay calls with no time passing lowers health by
5 (saturating at 0). -/
theorem update_flat_health_penalty (p : Nybbler) (now : LocalDateTime)
    (h0 : elapsedSeconds p.last_updated now = 0)
    (hlow : p.hunger < 20 ∨ p.happiness < 20) :
    (∀ q : Nybbler, ∀ t : LocalDateTime,
        ((q.update t).hunger < 20 ∨ (q.update t).happiness < 20) →
          (q.update t).health = q.health - 5) ∧
      ∀ n : Nat, ((fun q : Nybbler => q.update now)^[n] p).health = p.health - 5 * n := by
  constructor
  · intro q t hq
    simp only [Nybbler.update] at hq ⊢
    rw [if_pos hq]
  · have key : ∀ n : Nat,
        ((fun q : Nybbler => q.update now)^[n] p).hunger = p.hunger ∧
          ((fun q : Nybbler => q.update now)^[n] p).happiness = p.happiness ∧
          ((fun q : Nybbler => q.update now)^[n] p).health = p.health - 5 * n ∧
          elapsedSeconds ((fun q : Nybbler => q.update now)^[n] p).last_updated now = 0 := by
      intro n
      induction n with
      | zero => exact ⟨rfl, rfl, by simp, h0⟩
      | succ n ih =>
        obtain ⟨ih1, ih2, ih3, ih4⟩ := ih
        rw [Function.iterate_succ_apply']
        set q := (fun q : Nybbler => q.update now)^[n] p with hq
        have e5 := statDecrease_of_nonpos 5 5 _ (le_of_eq ih4)
        have e3 := statDecrease_of_nonpos 3 3 _ (le_of_eq ih4)
        have e2 := statDecrease_of_nonpos 2 2 _ (le_of_eq ih4)
        have hcond : q.hunger < 20 ∨ q.happiness < 20 := by omega
        simp only [Nybbler.update, e5, e3, e2, if_pos hcond, Nat.sub_zero]
        refine ⟨?_, ?_, ?_, ?_⟩ <;>
          first | trivial | omega | exact elapsedSeconds_self now
    exact fun n => (key n).2.2.1

theorem digitChar_isDigit_toNat :
    ∀ d : Nat, d < 10 →
      (Nat.digitChar d).isDigit = true ∧ (Nat.digitChar d).toNat - 48 = d := by
  decide

theorem readDigits_digitChars (k : Nat) :
    ∀ n acc : Nat, ∀ r : List Char, n < 10 ^ k →
      readDigits k acc (digitChars k n ++ r) = some (acc * 10 ^ k + n, r) := by
  induction k with
  | zero =>
      intro n acc r h
      have hn : n = 0 := by simpa using h
      simp [hn, digitChars, readDigits]
  | succ k ih =>
      intro n acc r h
      have h10 : n < 10 ^ k * 10 := by
        have hp := pow_succ (10 : Nat) k
        omega
      have hd : n / 10 ^ k < 10 := Nat.div_lt_of_lt_mul h10
      obtain ⟨hdig, hval⟩ := digitChar_isDigit_toNat _ hd
      have hpos : 0 < 10 ^ k := pow_pos (by norm_num) k
      have hmod : n % 10 ^ k < 10 ^ k := Nat.mod_lt _ hpos
      calc readDigits (k + 1) acc (digitChars (k + 1) n ++ r)
          = readDigits k (acc * 10 + n / 10 ^ k)
              (digitChars k (n % 10 ^ k) ++ r) := by
            simp [digitChars, readDigits, hdig, hval]
        _ = some ((acc * 10 + n / 10 ^ k) * 10 ^ k + n % 10 ^ k, r) :=
            ih (n % 10 ^ k) (acc * 10 + n / 10 ^ k) r hmod
        _ = some (acc * 10 ^ (k + 1) + n, r) := by
            have hsplit : (acc * 10 + n / 10 ^ k) * 10 ^ k + n % 10 ^ k
                = acc * (10 ^ k * 10) + (10 ^ k * (n / 10 ^ k) + n % 10 ^ k) := by
              ring
            rw [hsplit, Nat.div_add_mod, ← pow_succ]

theorem expectChar_cons (c : Char) (s : List Char) :
    expectChar c (c :: s) = some s := by
  simp [expectChar]

theorem parseDate_dateChars (y mo d : Nat) (r : List Char)
    (hy : y < 10000) (hmo : mo < 100) (hd : d < 100) :
    parseDate (dateChars y mo d ++ r) = some (y, mo, d, r) := by
  have p4 : (10 : Nat) ^ 4 = 10000 := by norm_num
  have p2 : (10 : Nat) ^ 2 = 100 := by norm_num
  have ry : ∀ s, readDigits 4 0 (digitChars 4 y ++ s) = some (y, s) := fun s => by
    simpa using readDigits_digitChars 4 y 0 s (by omega)
  have rmo : ∀ s, readDigits 2 0 (digitChars 2 mo ++ s) = some (mo, s) := fun s => by
    simpa using readDigits_digitChars 2 mo 0 s (by omega)
  have rd : ∀ s, readDigits 2 0 (digitChars 2 d ++ s) = some (d, s) := fun s => by
    simpa using readDigits_digitChars 2 d 0 s (by omega)
  simp [parseDate, dateChars, List.append_assoc, ry, rmo, rd, expectChar_cons]

theorem parseClock_clockChars (h mi s : Nat) (r : List Char)
    (hh : h < 100) (hmi : mi < 100) (hs : s < 100) :
    parseClock (clockChars h mi s ++ r) = some (h, mi, s, r) := by
  have p2 : (10 : Nat) ^ 2 = 100 := by norm_num
  have rh : ∀ u, readDigits 2 0 (digitChars 2 h ++ u) = some (h, u) := fun u => by
    simpa using readDigits_digitChars 2 h 0 u (by omega)
  have rmi : ∀ u, readDigits 2 0 (digitChars 2 mi ++ u) = some (mi, u) := fun u => by
    simpa using readDigits_digitChars 2 mi 0 u (by omega)
  have rs : ∀ u, readDigits 2 0 (digitChars 2 s ++ u) = some (s, u) := fun u => by
    simpa using readDigits_digitChars 2 s 0 u (by omega)
  simp [parseClock, clockChars, List.append_assoc, rh, rmi, rs, expectChar_cons]

theorem parseOffset_offsetChars (off : Int) (hoff : off.natAbs < 1440) :
    parseOffset (offsetChars off) = some (off, []) := by
  have p2 : (10 : Nat) ^ 2 = 100 := by norm_num
  obtain ⟨a, ha⟩ : ∃ a : Nat, off.natAbs = a := ⟨_, rfl⟩
  have rh : ∀ u, readDigits 2 0 (digitChars 2 (a / 60) ++ u) =
      some (a / 60, u) := fun u => by
    simpa using readDigits_digitChars 2 (a / 60) 0 u (by omega)
  have rm0 : readDigits 2 0 (digitChars 2 (a % 60)) = some (a % 60, []) := by
    simpa using readDigits_digitChars 2 (a % 60) 0 [] (by omega)
  have h1 : a / 60 < 24 := by omega
  have h2 : a % 60 < 60 := by omega
  simp only [offsetChars, ha]
  by_cases hsgn : (0 : Int) ≤ off
  · simp [parseOffset, readSign, hsgn, rh, rm0, expectChar_cons, h1, h2]
    all_goals omega
  · simp [parseOffset, readSign, hsgn, rh, rm0, expectChar_cons, h1, h2]
    all_goals omega

theorem daysInMonth_le (y m : Nat) : daysInMonth y m ≤ 31 := by
  unfold daysInMonth
  split_ifs <;> omega

theorem parseRfc3339_toRfc3339 (t : LocalDateTime) (hv : t.Valid) :
    parseRfc3339 (toRfc3339 t) = some t := by
  obtain ⟨hy, hm1, hm2, hd1, hd2, hh, hmi, hs, hn, ho⟩ := hv
  have hdim := daysInMonth_le t.year t.month
  have p9 : (10 : Nat) ^ 9 = 1000000000 := by norm_num
  have pdate := fun r =>
    parseDate_dateChars t.year t.month t.day r hy (by omega) (by omega)
  have pclock := fun r =>
    parseClock_clockChars t.hour t.minute t.second r (by omega) (by omega)
      (by omega)
  have poff := parseOffset_offsetChars t.offsetMinutes ho
  have rn : ∀ s, readDigits 9 0 (digitChars 9 t.nano ++ s) =
      some (t.nano, s) := fun s => by
    simpa using readDigits_digitChars 9 t.nano 0 s (by omega)
  simp [parseRfc3339, toRfc3339, pdate, pclock, poff, rn, expectChar_cons,
    hm1, hm2, hd1, hd2, hh, hmi, hs]

/-- C8: serializing a pet and deserializing the result reproduces an
identical pet in every field, the last_updated timestamp round-tripping
exactly through its textual RFC 3339 form. -/
theorem save_load_roundtrip (p : Nybbler) (gen : CharacterType)
    (hv : p.last_updated.Valid) :
    Nybbler.load p.save gen = some p := by
  have hparse := parseRfc3339_toRfc3339 p.last_updated hv
  have hlist : (String.mk (toRfc3339 p.last_updated)).toList =
      toRfc3339 p.last_updated := rfl
  simp [Nybbler.load, Nybbler.save, hlist, hparse]

/-- Witness for C8: a concrete fresh pet survives the save/load round
trip unchanged. -/
theorem save_load_roundtrip_witness :
    Nybbler.load rex.save CharacterType.Ghost = some rex :=
  save_load_roundtrip rex CharacterType.Ghost (by decide)

/-- C9: deserializing a saved pet whose record omits the cosmetic
character_type field succeeds and assigns that field the generated default
value; the missing field never causes a failure. -/
theorem load_missing_character_type (r : SaveRecord) (gen : CharacterType)
    (dt : LocalDateTime) (hmiss : r.character_type = none)
    (hparse : parseRfc3339 r.last_updated.toList = some dt) :
    ∃ q : Nybbler, Nybbler.load r gen = some q ∧ q.character_type = gen := by
  refine ⟨{ name := r.name
            hunger := r.hunger
            happiness := r.happiness
            energy := r.energy
            health := r.health
            age := r.age
            last_updated := dt
            mood := r.mood
            character_type := gen }, ?_, rfl⟩
  have hdata : parseRfc3339 r.last_updated.data = some dt := hparse
  simp [Nybbler.load, hparse, hdata, hmiss]

/-- Witness for C9: a concrete old save record without the field loads
successfully and receives the generated default. -/
theorem load_missing_character_type_witness :
    ∃ q : Nybbler, Nybbler.load oldSave CharacterType.Robo = some q ∧
      q.character_type = CharacterType.Robo :=
  load_missing_character_type oldSave CharacterType.Robo tJan1 rfl
    (parseRfc3339_toRfc3339 tJan1 (by decide))

/-- Witness for C2: the priority-table agreement at a concrete stat
tuple. -/
theorem update_mood_follows_priority_table_witness :
    update_mood 80 50 100 100 = moodSpecTable 80 50 100 100 :=
  update_mood_follows_priority_table 80 50 100 100

/-- Witness for C7: the feed scenario at a concrete creation instant and
character. -/
theorem feed_fresh_pet_witness :
    (Nybbler.new "Rex" tJan1 CharacterType.Cat).feed.hunger = 80 ∧
      (Nybbler.new "Rex" tJan1 CharacterType.Cat).feed.energy = 100 ∧
      (Nybbler.new "Rex" tJan1 CharacterType.Cat).feed.mood =
        NybblerMood.Neutral :=
  feed_fresh_pet tJan1 CharacterType.Cat

/-- Witness for C10: two back-to-back zero-elapsed decay calls on a
starving pet cost ten health. -/
theorem update_flat_health_penalty_witness :
    ((hungryRex.update tJan1).update tJan1).health =
      hungryRex.health - 5 * 2 :=
  (update_flat_health_penalty hungryRex tJan1 (by decide) (by decide)).2 2
